import Mathlib

/-!
Shallow embedding of `src/wooman_day.py` (pandas/streamlit dashboard).

The embedding covers the analytical core the specification describes:
the Loader (`load_data`, lines 23-50), the Normalizer (lines 45-49: female-share
coercion, area-tag explosion, `dropna`), and the Aggregator (the ranking logic of
`plot_boxplot_top_areas`, lines 72-79, and the quartile grouping of
`plot_boxplot_by_quartile`, lines 138-144).  Presentation code (matplotlib
styling, streamlit widgets) is out of scope, as in the spec.

Modelling decisions:
* Python `float` values are modelled as exact rationals (`ℚ`); `NaN` is
  modelled with `Option` (`none` = missing/NaN).
* Python's `float(s)` parser is modelled for the string shapes reachable here:
  optional surrounding whitespace, optional sign, decimal digit literals with at
  most one period, and the string "nan" (which `astype(str)` produces for
  missing values).  Exponents and infinities are not reachable from this data
  and are rejected, matching the ValueError branch.
* `pandas.groupby(sort=True)` sorts its keys ascending (code-point order on
  strings, matching Python string comparison).  `sort_values` uses numpy's
  default `kind='quicksort'` (introsort), whose order among equal elements is
  deterministic but implementation-defined and unstable above numpy's
  small-array insertion-sort threshold; the embedding realises one concrete
  deterministic order (an insertion sort).  No universal theorem below
  depends on the tie order - only on the sorted-by-median property, which
  holds under any sort kind - and the one concrete tie-order evaluation is on
  a 2-element array, inside the regime where introsort is an insertion sort
  and the model provably coincides with numpy.
* Machine floats aside, all pandas operations used by the source are
  deterministic pure functions, so the pipeline is modelled as a pure function
  of a directory value.
-/

/-- One-character split, the model of Python `s.split(";")` /
`Series.str.split(";")` on a present string: keeps empty tokens, and the empty
string splits to one empty token. -/
def splitOnChar (sep : Char) : List Char → List (List Char)
  | [] => [[]]
  | c :: cs =>
    match splitOnChar sep cs with
    | [] => [[c]]
    | t :: ts => if c = sep then [] :: t :: ts else (c :: t) :: ts

/-- Model of Python `str.strip()` on the character list: drop leading and
trailing whitespace. -/
def pyStripL (l : List Char) : List Char :=
  ((l.dropWhile Char.isWhitespace).reverse.dropWhile Char.isWhitespace).reverse

/-- Model of Python `str.strip()` (line 48, `Series.str.strip`). -/
def pyStrip (s : String) : String := String.mk (pyStripL s.data)

/-- Model of `str.replace(",", ".")` (line 45): a single-character literal
replacement is a character-wise map. -/
def commaToPeriod (s : String) : String :=
  String.mk (s.data.map (fun c => if c = ',' then '.' else c))

/-- Value of a list of decimal digit characters. -/
def natOfDigits (l : List Char) : Nat :=
  l.foldl (fun a c => 10 * a + (c.toNat - 48)) 0

/-- All characters are decimal digits. -/
def isDigits (l : List Char) : Bool := l.all Char.isDigit

/-- Unsigned part of the Python `float` parser: digit literals with at most one
period; at least one digit overall; anything else is a ValueError (`none`).
The value of "a.b" is the exact rational with numerator `ab` (digits
concatenated) and denominator `10 ^ length b`; the lemma
`pyFloatCore_frac_eq` below certifies this equals
`natOfDigits a + natOfDigits b / 10 ^ length b`. -/
def pyFloatCore (l : List Char) : Option ℚ :=
  match splitOnChar '.' l with
  | [a] => if !a.isEmpty && isDigits a then some ((natOfDigits a : ℚ)) else none
  | [a, b] =>
    if (!a.isEmpty || !b.isEmpty) && isDigits a && isDigits b then
      some (mkRat (natOfDigits (a ++ b)) (10 ^ b.length))
    else none
  | _ => none

/-- Model of Python `float(s)` as invoked by `astype(float)` (line 45):
`none` = ValueError, `some none` = NaN, `some (some q)` = the parsed number. -/
def pyFloat? (s : String) : Option (Option ℚ) :=
  let l := pyStripL s.data
  if l = ['n', 'a', 'n'] then some none
  else
    match l with
    | '-' :: rest => (pyFloatCore rest).map (fun q => some (-q))
    | '+' :: rest => (pyFloatCore rest).map (fun q => some q)
    | _ => (pyFloatCore l).map (fun q => some q)

/-- Model of `astype(str)` on one cell: a missing value (NaN) stringifies to
"nan", a present string stays itself. -/
def pyStr : Option String → String
  | none => "nan"
  | some s => s

/-- Line 45 applied to one cell of the `%Female` column:
`astype(str)`, then `str.replace(",", ".")`, then `astype(float)`. -/
def parseFemaleField (f : Option String) : Option (Option ℚ) :=
  pyFloat? (commaToPeriod (pyStr f))

/-- One raw CSV row: the three columns the core uses, each possibly missing. -/
structure CsvRow where
  female : Option String
  areas : Option String
  quartile : Option String
  deriving DecidableEq, Repr

/-- A Record: a CSV row tagged with its source year (line 41). -/
structure Row where
  year : Int
  female : Option String
  areas : Option String
  quartile : Option String
  deriving DecidableEq, Repr

/-- An ExplodedRecord: one row per (record, area) pair after normalization,
with the female share coerced to a number.  The quartile label may still be
missing (`dropna` at line 49 does not inspect it). -/
structure XRow where
  year : Int
  female : ℚ
  area : String
  quartile : Option String
  deriving DecidableEq, Repr

/-- `df["Year"] = year` (line 41). -/
def tagYear (y : Int) (c : CsvRow) : Row :=
  ⟨y, c.female, c.areas, c.quartile⟩

/-- Line 46: `str.split(";")` on one cell.  A missing cell stays a single
missing value (pandas `.str.split` leaves NaN alone, and `explode` then keeps
that single NaN row). -/
def explodeAreas : Option String → List (Option String)
  | none => [none]
  | some s => (splitOnChar ';' s.data).map (fun t => some (String.mk t))

/-- Line 48: `str.strip()` on one exploded cell (NaN passes through). -/
def stripArea : Option String → Option String
  | none => none
  | some s => some (pyStrip s)

/-- Lines 46-49 applied to one Record whose female field has already been
coerced (`q`, with `none` = NaN): split, explode, strip, then
`dropna(subset=["%Female", "Areas", "Year"])` keeps exactly the exploded rows
whose female value and area are both present.  An empty string is present, not
NaN, so it survives `dropna`. -/
def rowExplode (r : Row) (q : Option ℚ) : List XRow :=
  ((explodeAreas r.areas).map stripArea).filterMap (fun a =>
    match q, a with
    | some qv, some s => some ⟨r.year, qv, s, r.quartile⟩
    | _, _ => none)

/-- Line 45 applied to the whole `%Female` column: `astype(float)` raises
ValueError (here `none`) as soon as any single cell fails to parse; no partial
column survives. -/
def coerceAll : List Row → Option (List (Row × Option ℚ))
  | [] => some []
  | r :: rs =>
    match parseFemaleField r.female, coerceAll rs with
    | some q, some t => some ((r, q) :: t)
    | _, _ => none

/-- Concatenation of the per-row explosions, preserving row order. -/
def explodeAll : List (Row × Option ℚ) → List XRow
  | [] => []
  | p :: ps => rowExplode p.1 p.2 ++ explodeAll ps

/-- The Normalizer (lines 45-49): coerce the female column (fatal `none` on a
ValueError), explode the area tags, strip, and drop rows with a missing female
value or missing area. -/
def normalizeRows (rows : List Row) : Option (List XRow) :=
  (coerceAll rows).map explodeAll

/-- A directory: the files it contains, as (name, parsed CSV rows) pairs in
directory order.  CSV text parsing itself is not modelled; the claims under
study only concern file existence and row content. -/
abbrev Dir := List (String × List CsvRow)

/-- The Loader's failure modes: a configured file absent from the directory
(lines 34-38: the error names the file and shows the directory listing before
`st.stop()`), or the ValueError escaping `astype(float)` at line 45. -/
inductive LoadError where
  | missingFile (filename : String) (listing : List String)
  | formatError
  deriving DecidableEq, Repr

/-- `path.exists()` plus `pd.read_csv(path, sep=";")` on a present file. -/
def lookupFile (dir : Dir) (name : String) : Option (List CsvRow) :=
  (dir.find? (fun e => e.1 == name)).map (fun e => e.2)

/-- `[p.name for p in base_dir.iterdir()]` (line 37). -/
def dirListing (dir : Dir) : List String := dir.map (fun e => e.1)

/-- The configured year → filename mapping (lines 25-29), in the insertion
order the `for` loop at line 32 iterates it. -/
def files : List (Int × String) :=
  [(2022, "scimagojr 2022.csv"), (2023, "scimagojr 2023.csv"), (2024, "scimagojr 2024.csv")]

/-- The loop at lines 32-42 plus the `pd.concat` at line 44: read each
configured file in order, stopping with `missingFile` at the first absent one,
tag rows with their year, and concatenate preserving order. -/
def readFiles (dir : Dir) : List (Int × String) → Except LoadError (List Row)
  | [] => Except.ok []
  | (y, fn) :: rest =>
    match lookupFile dir fn with
    | none => Except.error (LoadError.missingFile fn (dirListing dir))
    | some rs => (readFiles dir rest).map (fun t => rs.map (tagYear y) ++ t)

/-- `load_data` (lines 23-50): read and concatenate the yearly files, then
normalize. -/
def load_data (dir : Dir) : Except LoadError (List XRow) :=
  (readFiles dir files).bind (fun rows =>
    match normalizeRows rows with
    | some xs => Except.ok xs
    | none => Except.error LoadError.formatError)

/-- Stable insertion relative to a boolean `le`: `x` goes in front of the first
element it is `le`-related to. -/
def insertLe {α : Type} (le : α → α → Bool) (x : α) : List α → List α
  | [] => [x]
  | y :: ys => if le x y then x :: y :: ys else y :: insertLe le x ys

/-- Stable insertion sort: earlier input elements come before equal later
ones. -/
def isort {α : Type} (le : α → α → Bool) : List α → List α
  | [] => []
  | x :: xs => insertLe le x (isort le xs)

/-- Code-point lexicographic "less or equal" on character lists, the order
Python uses to compare strings (and hence the order of `groupby`'s sorted
keys). -/
def strLeL : List Char → List Char → Bool
  | [], _ => true
  | _ :: _, [] => false
  | a :: as, b :: bs => if a.toNat = b.toNat then strLeL as bs else decide (a.toNat < b.toNat)

/-- Python string `<=`. -/
def strLe (s t : String) : Bool := strLeL s.data t.data

/-- Distinct elements of a list in first-occurrence order. -/
def dedupFirst : List String → List String
  | [] => []
  | x :: xs => x :: (dedupFirst xs).filter (fun y => y != x)

/-- Ascending sort of a group's values, as `Series.median` sorts before taking
the middle. -/
def sortQ (l : List ℚ) : List ℚ := isort (fun a b => decide (a ≤ b)) l

/-- Exact average of two rationals, written with `mkRat` on the explicit
numerator and denominator; the lemma `ratAvg_eq` below certifies
`ratAvg x y = (x + y) / 2`. -/
def ratAvg (x y : ℚ) : ℚ :=
  mkRat (x.num * (y.den : Int) + y.num * (x.den : Int)) (2 * (x.den * y.den))

/-- `Series.median()` over exact rationals: middle element of the sorted
values for odd length, average of the two middle elements for even length,
NaN (here `none`) for an empty series. -/
def medianQ (l : List ℚ) : Option ℚ :=
  let s := sortQ l
  if s.length = 0 then none
  else if s.length % 2 = 1 then some (s.getD (s.length / 2) 0)
  else some (ratAvg (s.getD (s.length / 2 - 1) 0) (s.getD (s.length / 2) 0))

/-- Comparison used to model `sort_values(ascending=False)` on the per-key
median series: a key stays in front when its median is at least the next
one's. -/
def medLe (a b : String × ℚ) : Bool := decide (b.2 ≤ a.2)

/-- The `%Female` values of the rows of `dy` whose area equals `a`, in row
order (the content of one `groupby("Areas")` group). -/
def valuesOf (dy : List XRow) (a : String) : List ℚ :=
  (dy.filter (fun r => r.area == a)).map (fun r => r.female)

/-- The keys of `groupby("Areas", sort=True)`: the distinct areas, sorted
ascending by code point. -/
def areaKeys (dy : List XRow) : List String :=
  isort strLe (dedupFirst (dy.map (fun r => r.area)))

/-- The ranking core of `plot_boxplot_top_areas` (lines 73-79): filter to the
year, take the per-area medians over the sorted distinct areas, sort them
descending by median, keep the first `top_n`, and return for each selected
area its full ordered value collection alongside the median.  The order of
equal medians under `sort_values(kind='quicksort')` is implementation-defined;
`isort` here is one deterministic realisation of it, and the theorems about
`rank_areas` only use the sorted-by-median property, which is
realisation-independent. -/
def rank_areas (xs : List XRow) (year : Int) (top_n : Nat) : List (String × ℚ × List ℚ) :=
  let dy := xs.filter (fun r => r.year == year)
  let meds := (areaKeys dy).filterMap (fun a => (medianQ (valuesOf dy a)).map (fun m => (a, m)))
  ((isort medLe meds).take top_n).map (fun p => (p.1, p.2, valuesOf dy p.1))

/-- The default `top_n` of `plot_boxplot_top_areas` (line 72). -/
def top_n_default : Nat := 10

/-- The `%Female` values of the rows of `da` whose quartile label is present
and equals `q`, in row order. -/
def quartileValuesOf (da : List XRow) (q : String) : List ℚ :=
  (da.filter (fun r => r.quartile == some q)).map (fun r => r.female)

/-- The keys of `groupby("SJR Best Quartile", sort=True)`: the distinct
present quartile labels, sorted ascending; rows with a missing label are
dropped by groupby itself. -/
def quartileKeys (da : List XRow) : List String :=
  isort strLe (dedupFirst (da.filterMap (fun r => r.quartile)))

/-- The grouping core of `plot_boxplot_by_quartile` (lines 139-144): filter to
the year and exact area, group by present quartile label, and order the groups
descending by their median, each carrying its full ordered value collection. -/
def group_by_quartile (xs : List XRow) (year : Int) (area : String) : List (String × ℚ × List ℚ) :=
  let da := xs.filter (fun r => r.year == year && r.area == area)
  let meds := (quartileKeys da).filterMap (fun q => (medianQ (quartileValuesOf da q)).map (fun m => (q, m)))
  (isort medLe meds).map (fun p => (p.1, p.2, quartileValuesOf da p.1))

/-- The full Loader → Normalizer → Aggregator pipeline for one (year, area,
top_n) selection. -/
def pipeline (dir : Dir) (year : Int) (area : String) (top_n : Nat) :
    Except LoadError (List (String × ℚ × List ℚ) × List (String × ℚ × List ℚ)) :=
  (load_data dir).map (fun xs => (rank_areas xs year top_n, group_by_quartile xs year area))

/-- A row whose female-share field cannot be coerced to a number. -/
def c1BadRow : CsvRow := ⟨some "abc", some "X", none⟩

/-- A directory holding all three configured files, the 2022 one containing
the uncoercible row. -/
def c1Dir : Dir :=
  [("scimagojr 2022.csv", [c1BadRow]), ("scimagojr 2023.csv", []), ("scimagojr 2024.csv", [])]

/-- A record whose area tag ends in a semicolon, producing an empty token. -/
def c2Row : Row := ⟨2022, some "50", some "Medicine;", none⟩

/-- Two areas with equal medians whose first-seen order ("B" before "A") is the
reverse of their alphabetical order. -/
def c3Data : List XRow := [⟨2022, 50, "B", none⟩, ⟨2022, 50, "A", none⟩]

/-- The spec's end-to-end quartile example: 2023 Medicine rows with quartile
labels Q1 → [10] and Q2 → [20, 90]. -/
def c4Data : List XRow :=
  [⟨2023, 10, "Medicine", some "Q1"⟩, ⟨2023, 20, "Medicine", some "Q2"⟩,
   ⟨2023, 90, "Medicine", some "Q2"⟩]

theorem ratAvg_eq (x y : ℚ) : ratAvg x y = (x + y) / 2 := by
  unfold ratAvg
  rw [Rat.mkRat_eq_div]
  have hx : (x.den : ℚ) ≠ 0 := by exact_mod_cast x.den_nz
  have hy : (y.den : ℚ) ≠ 0 := by exact_mod_cast y.den_nz
  have hxe : ((x.num : ℚ)) = x * (x.den : ℚ) := (div_eq_iff hx).1 (Rat.num_div_den x)
  have hye : ((y.num : ℚ)) = y * (y.den : ℚ) := (div_eq_iff hy).1 (Rat.num_div_den y)
  have h2 : (2 * ((x.den : ℚ) * (y.den : ℚ))) ≠ 0 := by positivity
  push_cast
  rw [hxe, hye, div_eq_div_iff h2 (by norm_num : (2 : ℚ) ≠ 0)]
  ring

theorem natOfDigits_append (a b : List Char) :
    natOfDigits (a ++ b) = natOfDigits a * 10 ^ b.length + natOfDigits b := by
  have key : ∀ (l : List Char) (init : Nat),
      l.foldl (fun acc c => 10 * acc + (c.toNat - 48)) init =
        init * 10 ^ l.length + l.foldl (fun acc c => 10 * acc + (c.toNat - 48)) 0 := by
    intro l
    induction l with
    | nil => intro init; simp
    | cons c cs ih =>
      intro init
      simp only [List.foldl_cons, List.length_cons, Nat.mul_zero, Nat.zero_add]
      rw [ih (10 * init + (c.toNat - 48)), ih (c.toNat - 48)]
      ring
  unfold natOfDigits
  rw [List.foldl_append, key]

theorem pyFloatCore_frac_eq (a b : List Char) :
    (mkRat (natOfDigits (a ++ b)) (10 ^ b.length) : ℚ) =
      (natOfDigits a : ℚ) + (natOfDigits b : ℚ) / 10 ^ b.length := by
  rw [Rat.mkRat_eq_div, natOfDigits_append]
  have h10 : ((10 : ℚ) ^ b.length) ≠ 0 := by positivity
  push_cast
  field_simp

theorem mem_insertLe {α : Type} (le : α → α → Bool) (x a : α) (l : List α) :
    a ∈ insertLe le x l ↔ a = x ∨ a ∈ l := by
  induction l with
  | nil => simp [insertLe]
  | cons y ys ih =>
    simp only [insertLe]
    by_cases h : le x y = true
    · rw [if_pos h]
      exact List.mem_cons
    · rw [if_neg h]
      simp only [List.mem_cons, ih]
      tauto

theorem length_insertLe {α : Type} (le : α → α → Bool) (x : α) (l : List α) :
    (insertLe le x l).length = l.length + 1 := by
  induction l with
  | nil => rfl
  | cons y ys ih =>
    simp only [insertLe]
    by_cases h : le x y = true
    · simp [if_pos h]
    · simp [if_neg h, ih]

theorem mem_isort {α : Type} (le : α → α → Bool) (a : α) (l : List α) :
    a ∈ isort le l ↔ a ∈ l := by
  induction l with
  | nil => simp [isort]
  | cons x xs ih =>
    simp only [isort, mem_insertLe, ih, List.mem_cons]

theorem length_isort {α : Type} (le : α → α → Bool) (l : List α) :
    (isort le l).length = l.length := by
  induction l with
  | nil => rfl
  | cons x xs ih => simp only [isort, length_insertLe, ih, List.length_cons]

theorem pairwise_insertLe {α : Type} (le : α → α → Bool)
    (htrans : ∀ a b c, le a b = true → le b c = true → le a c = true)
    (htot : ∀ a b, le a b = true ∨ le b a = true)
    (x : α) (l : List α) (hl : l.Pairwise (fun a b => le a b = true)) :
    (insertLe le x l).Pairwise (fun a b => le a b = true) := by
  induction l with
  | nil => simp [insertLe]
  | cons y ys ih =>
    rcases List.pairwise_cons.1 hl with ⟨hy, hys⟩
    simp only [insertLe]
    by_cases h : le x y = true
    · rw [if_pos h]
      refine List.pairwise_cons.2 ⟨?_, hl⟩
      intro z hz
      rcases List.mem_cons.1 hz with rfl | hz'
      · exact h
      · exact htrans x y z h (hy z hz')
    · rw [if_neg h]
      refine List.pairwise_cons.2 ⟨?_, ih hys⟩
      intro z hz
      obtain hxz | hz' := (mem_insertLe le x z ys).1 hz
      · subst hxz
        rcases htot z y with h' | h'
        · exact absurd h' h
        · exact h'
      · exact hy z hz'

theorem pairwise_isort {α : Type} (le : α → α → Bool)
    (htrans : ∀ a b c, le a b = true → le b c = true → le a c = true)
    (htot : ∀ a b, le a b = true ∨ le b a = true)
    (l : List α) : (isort le l).Pairwise (fun a b => le a b = true) := by
  induction l with
  | nil => simp [isort]
  | cons x xs ih => exact pairwise_insertLe le htrans htot x (isort le xs) ih

theorem mem_dedupFirst (a : String) (l : List String) : a ∈ dedupFirst l ↔ a ∈ l := by
  induction l with
  | nil => simp [dedupFirst]
  | cons x xs ih =>
    simp only [dedupFirst, List.mem_cons, List.mem_filter, ih, bne_iff_ne]
    by_cases h : a = x
    · simp [h]
    · simp [h]

theorem filter_swap {α : Type} (p q : α → Bool) (l : List α) :
    (l.filter p).filter q = (l.filter q).filter p := by
  induction l with
  | nil => rfl
  | cons x xs ih =>
    by_cases hp : p x = true <;> by_cases hq : q x = true <;>
      simp [List.filter_cons, hp, hq, ih]

theorem length_filterMapPair (g : String → Option ℚ) (ks : List String)
    (h : ∀ a ∈ ks, (g a).isSome = true) :
    (ks.filterMap (fun a => (g a).map (fun m => (a, m)))).length = ks.length := by
  induction ks with
  | nil => rfl
  | cons a ks ih =>
    rw [List.filterMap_cons]
    cases hga : g a with
    | none =>
      have := h a (List.mem_cons_self a ks)
      rw [hga] at this
      simp at this
    | some m =>
      simp only [Option.map_some', List.length_cons]
      rw [ih (fun b hb => h b (List.mem_cons_of_mem a hb))]

theorem medianQ_isSome (l : List ℚ) (h : l ≠ []) : (medianQ l).isSome = true := by
  have hlen : (sortQ l).length = l.length := length_isort _ l
  have hne : (sortQ l).length ≠ 0 := by
    rw [hlen]
    exact fun h0 => h (List.length_eq_zero.1 h0)
  simp only [medianQ]
  rw [if_neg hne]
  by_cases hp : (sortQ l).length % 2 = 1
  · rw [if_pos hp]
    rfl
  · rw [if_neg hp]
    rfl

theorem mem_areaKeys (dy : List XRow) (a : String) :
    a ∈ areaKeys dy ↔ a ∈ dy.map (fun r => r.area) := by
  unfold areaKeys
  rw [mem_isort, mem_dedupFirst]

theorem valuesOf_ne_nil (dy : List XRow) (a : String)
    (h : a ∈ dy.map (fun r => r.area)) : valuesOf dy a ≠ [] := by
  rcases List.mem_map.1 h with ⟨r, hr, hra⟩
  unfold valuesOf
  intro hbad
  rw [List.map_eq_nil_iff] at hbad
  have hmem : r ∈ dy.filter (fun rr => rr.area == a) := by
    rw [List.mem_filter]
    refine ⟨hr, ?_⟩
    rw [hra]
    simp
  rw [hbad] at hmem
  exact absurd hmem (List.not_mem_nil r)


theorem medLe_trans (a b c : String × ℚ) (h1 : medLe a b = true) (h2 : medLe b c = true) :
    medLe a c = true := by
  simp only [medLe, decide_eq_true_eq] at h1 h2 ⊢
  exact le_trans h2 h1

theorem medLe_total (a b : String × ℚ) : medLe a b = true ∨ medLe b a = true := by
  simp only [medLe, decide_eq_true_eq]
  exact le_total b.2 a.2

/-- Claim C1, counterexample: a row whose female-share field ("abc") does not
parse as a number makes `load_data` abort the whole load with a format error
(the ValueError of `astype(float)` at line 45); the row is not dropped and no
dataset is produced, contrary to the claimed local recovery. -/
theorem c1_parse_failure_aborts_load :
    parseFemaleField c1BadRow.female = none ∧
    load_data c1Dir = Except.error LoadError.formatError := ⟨rfl, rfl⟩

/-- Claim C1, amended: the normalization step fails (and the load aborts) if
and only if some input row's female-share field fails to coerce; there is no
per-row recovery for a coercion failure.  Rows whose female-share is missing
stringify to "nan", parse to NaN, and are dropped by `dropna` instead. -/
theorem c1_normalizer_fatal_iff (rows : List Row) :
    normalizeRows rows = none ↔ ∃ r ∈ rows, parseFemaleField r.female = none := by
  unfold normalizeRows
  rw [Option.map_eq_none']
  induction rows with
  | nil => simp [coerceAll]
  | cons r rs ih =>
    simp only [coerceAll]
    cases hp : parseFemaleField r.female with
    | none =>
      simp only [List.mem_cons]
      constructor
      · intro _
        exact ⟨r, Or.inl rfl, hp⟩
      · intro _
        trivial
    | some q =>
      cases hc : coerceAll rs with
      | none =>
        constructor
        · intro _
          rcases ih.1 hc with ⟨r', hr', hP⟩
          exact ⟨r', List.mem_cons_of_mem r hr', hP⟩
        · intro _
          rfl
      | some t =>
        constructor
        · intro hbad
          simp at hbad
        · rintro ⟨r', hr', hP⟩
          rcases List.mem_cons.1 hr' with rfl | hr''
          · rw [hp] at hP
            simp at hP
          · have : coerceAll rs = none := ih.2 ⟨r', hr'', hP⟩
            rw [hc] at this
            simp at this

/-- Claim C2, counterexample: the area tag "Medicine;" of a single input row
explodes into two ExplodedRecords, the second with the empty string as its
area — the empty token survives trimming and `dropna` (which only removes
missing values, and an empty string is not missing). -/
theorem c2_empty_token_emitted :
    normalizeRows [c2Row] =
      some [⟨2022, 50, "Medicine", none⟩, ⟨2022, 50, "", none⟩] := by decide

/-- Claim C2, amended: for a present area tag, the Normalizer emits exactly
one ExplodedRecord per `;`-separated token in order — including tokens that
are empty after trimming; only a missing (NaN) area tag leads to the row being
dropped. -/
theorem c2_explosion_keeps_all_tokens :
    (∀ (y : Int) (f : Option String) (qt : Option String) (s : String) (q : ℚ),
      rowExplode ⟨y, f, some s, qt⟩ (some q) =
        (splitOnChar ';' s.data).map (fun t => ⟨y, q, pyStrip (String.mk t), qt⟩)) ∧
    (∀ (y : Int) (f : Option String) (qt : Option String) (q : Option ℚ),
      rowExplode ⟨y, f, none, qt⟩ q = []) := by
  constructor
  · intro y f qt s q
    simp only [rowExplode, explodeAreas]
    generalize splitOnChar ';' s.data = ts
    induction ts with
    | nil => rfl
    | cons t ts ih =>
      simp only [List.map_cons, List.filterMap_cons, stripArea, ih]
  · intro y f qt q
    cases q <;> rfl

/-- Claim C3, counterexample: with two areas "B" then "A" (first-seen order)
having equal medians, the ranking lists "A" before "B": the tie is resolved
from the alphabetical `groupby` key order, not by first-seen order.  On this
2-element median series numpy's introsort is an insertion sort, so the model's
tie order provably coincides with the program's here. -/
theorem c3_tie_order_not_first_seen :
    dedupFirst ((c3Data.filter (fun r => r.year == 2022)).map (fun r => r.area)) = ["B", "A"] ∧
    medianQ (valuesOf (c3Data.filter (fun r => r.year == 2022)) "A") =
      medianQ (valuesOf (c3Data.filter (fun r => r.year == 2022)) "B") ∧
    (rank_areas c3Data 2022 10).map (fun g => g.1) = ["A", "B"] := by decide

/-- Claim C3, amended: the ranking is sorted non-increasing by per-area
median and, being a pure function, is deterministic on a fixed input; among
equal medians the order is the implementation-defined tie order of
`sort_values`' unstable quicksort over the alphabetically-grouped keys, and in
particular not the first-seen order of the year-filtered data.  This theorem
states the sorted-by-median part, which is insensitive to how the sort orders
equal medians and so holds of the program under any sort kind. -/
theorem c3_ranking_sorted_nonincreasing (xs : List XRow) (year : Int) (n : Nat) :
    (rank_areas xs year n).Pairwise (fun g1 g2 => g2.2.1 ≤ g1.2.1) := by
  simp only [rank_areas]
  rw [List.pairwise_map]
  have hs := pairwise_isort medLe medLe_trans medLe_total
    ((areaKeys (xs.filter (fun r => r.year == year))).filterMap
      (fun a => (medianQ (valuesOf (xs.filter (fun r => r.year == year)) a)).map
        (fun m => (a, m))))
  have htake := List.Pairwise.sublist (List.take_sublist n _) hs
  exact htake.imp (fun h => of_decide_eq_true h)

/-- Claim C4: `group_by_quartile` always emits its groups sorted descending
by group median, and on the spec's end-to-end example (2023 Medicine,
Q1 → [10], Q2 → [20, 90]) returns Q2 (median 55, the average of the two
middle values of an even-sized group) before Q1 (median 10). -/
theorem c4_quartile_groups_sorted_desc :
    (∀ (xs : List XRow) (year : Int) (area : String),
      (group_by_quartile xs year area).Pairwise (fun g1 g2 => g2.2.1 ≤ g1.2.1)) ∧
    group_by_quartile c4Data 2023 "Medicine" =
      [("Q2", (55 : ℚ), ([20, 90] : List ℚ)), ("Q1", 10, [10])] := by
  constructor
  · intro xs year area
    simp only [group_by_quartile]
    rw [List.pairwise_map]
    have hs := pairwise_isort medLe medLe_trans medLe_total
      ((quartileKeys (xs.filter (fun r => r.year == year && r.area == area))).filterMap
        (fun q => (medianQ (quartileValuesOf
          (xs.filter (fun r => r.year == year && r.area == area)) q)).map (fun m => (q, m))))
    exact hs.imp (fun h => of_decide_eq_true h)
  · decide

/-- Claim C5: when no row matches the year/area filter, `group_by_quartile`
returns the empty grouping rather than failing. -/
theorem c5_no_match_empty_grouping (xs : List XRow) (year : Int) (area : String)
    (h : xs.filter (fun r => r.year == year && r.area == area) = []) :
    group_by_quartile xs year area = [] := by
  simp only [group_by_quartile, h]
  rfl

/-- Claim C5, witness: the 2023-only example data has no rows for 1999, and
the grouping for 1999 Medicine is empty. -/
theorem c5_no_match_empty_grouping_witness :
    c4Data.filter (fun r => r.year == (1999 : Int) && r.area == "Medicine") = [] ∧
    group_by_quartile c4Data 1999 "Medicine" = [] :=
  ⟨by decide, c5_no_match_empty_grouping c4Data 1999 "Medicine" (by decide)⟩

/-- Claim C6: the ranking length equals the minimum of `top_n` and the number
of distinct areas present in the selected year. -/
theorem c6_ranking_length (xs : List XRow) (year : Int) (n : Nat) :
    (rank_areas xs year n).length =
      min n (dedupFirst ((xs.filter (fun r => r.year == year)).map (fun r => r.area))).length := by
  simp only [rank_areas]
  rw [List.length_map, List.length_take, length_isort]
  rw [length_filterMapPair]
  · unfold areaKeys
    rw [length_isort]
  · intro a ha
    exact medianQ_isSome _ (valuesOf_ne_nil _ a ((mem_areaKeys _ a).1 ha))

/-- Claim C7: parsing a female-share field is invariant under replacing the
comma decimal separator with a period (the parser applies exactly that
replacement first, and the replacement is idempotent); in particular "45,7"
and "45.7" both parse to 457/10. -/
theorem c7_comma_decimal_parse :
    (∀ s : String, parseFemaleField (some s) = parseFemaleField (some (commaToPeriod s))) ∧
    parseFemaleField (some "45,7") = some (some ((457 : ℚ) / 10)) ∧
    parseFemaleField (some "45.7") = some (some ((457 : ℚ) / 10)) := by
  refine ⟨?_, ?_, ?_⟩
  · intro s
    have hcomp : ((fun c => if c = ',' then '.' else c) ∘ (fun c => if c = ',' then '.' else c)) =
        (fun c : Char => if c = ',' then '.' else c) := by
      funext c
      by_cases hc : c = ','
      · simp [hc]
      · simp [hc]
    have hidem : commaToPeriod (commaToPeriod s) = commaToPeriod s := by
      unfold commaToPeriod
      congr 1
      rw [show (String.mk (s.data.map (fun c => if c = ',' then '.' else c))).data =
        s.data.map (fun c => if c = ',' then '.' else c) from rfl]
      rw [List.map_map, hcomp]
    show pyFloat? (commaToPeriod s) = pyFloat? (commaToPeriod (commaToPeriod s))
    rw [hidem]
  · have h : parseFemaleField (some "45,7") = some (some (mkRat 457 10)) := rfl
    rw [h, Rat.mkRat_eq_div]
    norm_num
  · have h : parseFemaleField (some "45.7") = some (some (mkRat 457 10)) := rfl
    rw [h, Rat.mkRat_eq_div]
    norm_num

theorem readFiles_missing (dir : Dir) (fl : List (Int × String))
    (h : ∃ e ∈ fl, lookupFile dir e.2 = none) :
    ∃ fn, fn ∈ fl.map (fun e => e.2) ∧ lookupFile dir fn = none ∧
      readFiles dir fl = Except.error (LoadError.missingFile fn (dirListing dir)) := by
  induction fl with
  | nil =>
    rcases h with ⟨e, he, _⟩
    simp at he
  | cons p rest ih =>
    obtain ⟨y, fn⟩ := p
    cases hl : lookupFile dir fn with
    | none =>
      refine ⟨fn, ?_, hl, ?_⟩
      · simp
      · simp only [readFiles, hl]
    | some rs =>
      have h' : ∃ e ∈ rest, lookupFile dir e.2 = none := by
        rcases h with ⟨e, he, hee⟩
        rcases List.mem_cons.1 he with rfl | he'
        · rw [hee] at hl
          simp at hl
        · exact ⟨e, he', hee⟩
      rcases ih h' with ⟨fn', hmem, hnone, heq⟩
      refine ⟨fn', ?_, hnone, ?_⟩
      · simp only [List.map_cons]
        exact List.mem_cons_of_mem _ hmem
      · simp only [readFiles, hl, heq]
        rfl

/-- Claim C8: if any configured yearly file is absent from the directory,
`load_data` fails with an error naming an absent configured filename and
carrying the directory listing, and produces no dataset. -/
theorem c8_missing_file_fails (dir : Dir)
    (h : ∃ e ∈ files, lookupFile dir e.2 = none) :
    ∃ fn, fn ∈ files.map (fun e => e.2) ∧ lookupFile dir fn = none ∧
      load_data dir = Except.error (LoadError.missingFile fn (dirListing dir)) := by
  rcases readFiles_missing dir files h with ⟨fn, hmem, hnone, heq⟩
  refine ⟨fn, hmem, hnone, ?_⟩
  unfold load_data
  rw [heq]
  rfl

/-- Claim C8, witness: on an empty directory the loader fails naming
"scimagojr 2022.csv" with the (empty) directory listing. -/
theorem c8_missing_file_fails_witness :
    (∃ e ∈ files, lookupFile ([] : Dir) e.2 = none) ∧
    (∃ fn, fn ∈ files.map (fun e => e.2) ∧ lookupFile ([] : Dir) fn = none ∧
      load_data [] = Except.error (LoadError.missingFile fn (dirListing []))) :=
  ⟨⟨(2022, "scimagojr 2022.csv"), by decide, rfl⟩,
   c8_missing_file_fails [] ⟨(2022, "scimagojr 2022.csv"), by decide, rfl⟩⟩

/-- Claim C9: the full Loader → Normalizer → Aggregator pipeline is a pure
function of the directory contents and the selection, so running it twice on
the same input yields identical ranking and grouping outputs. -/
theorem c9_pipeline_deterministic (dir : Dir) (year : Int) (area : String) (n : Nat) :
    pipeline dir year area n = pipeline dir year area n := rfl

theorem filterMap_quartile_filter (da : List XRow) :
    (da.filter (fun r => r.quartile.isSome)).filterMap (fun r => r.quartile) =
      da.filterMap (fun r => r.quartile) := by
  induction da with
  | nil => rfl
  | cons r rs ih =>
    cases hq : r.quartile with
    | none => simp [List.filter_cons, List.filterMap_cons, hq, ih]
    | some s => simp [List.filter_cons, List.filterMap_cons, hq, ih]

theorem quartileValuesOf_filter (da : List XRow) (q : String) :
    quartileValuesOf (da.filter (fun r => r.quartile.isSome)) q = quartileValuesOf da q := by
  unfold quartileValuesOf
  congr 1
  induction da with
  | nil => rfl
  | cons r rs ih =>
    cases hq : r.quartile with
    | none => simp [List.filter_cons, hq, ih]
    | some s => simp [List.filter_cons, hq, ih]

/-- Claim C10: rows whose quartile label is missing are silently invisible
to `group_by_quartile`: its output on any data equals its output on the data
restricted to rows with a present quartile label (`groupby` drops missing
keys), and no group for a missing label can be produced. -/
theorem c10_missing_quartile_rows_ignored (xs : List XRow) (year : Int) (area : String) :
    group_by_quartile xs year area =
      group_by_quartile (xs.filter (fun r => r.quartile.isSome)) year area := by
  simp only [group_by_quartile]
  rw [filter_swap]
  have hkeys : quartileKeys ((xs.filter (fun r => r.year == year && r.area == area)).filter
      (fun r => r.quartile.isSome)) =
      quartileKeys (xs.filter (fun r => r.year == year && r.area == area)) := by
    unfold quartileKeys
    rw [filterMap_quartile_filter]
  have hvals : ∀ q, quartileValuesOf ((xs.filter (fun r => r.year == year && r.area == area)).filter
      (fun r => r.quartile.isSome)) q =
      quartileValuesOf (xs.filter (fun r => r.year == year && r.area == area)) q :=
    fun q => quartileValuesOf_filter _ q
  rw [hkeys]
  have hfun : (fun q => (medianQ (quartileValuesOf
      ((xs.filter (fun r => r.year == year && r.area == area)).filter
        (fun r => r.quartile.isSome)) q)).map (fun m => (q, m))) =
      (fun q => (medianQ (quartileValuesOf
        (xs.filter (fun r => r.year == year && r.area == area)) q)).map (fun m => (q, m))) :=
    funext (fun q => by rw [hvals q])
  rw [hfun]
  have hfun2 : (fun p : String × ℚ => (p.1, p.2, quartileValuesOf
      ((xs.filter (fun r => r.year == year && r.area == area)).filter
        (fun r => r.quartile.isSome)) p.1)) =
      (fun p : String × ℚ => (p.1, p.2, quartileValuesOf
        (xs.filter (fun r => r.year == year && r.area == area)) p.1)) :=
    funext (fun p => by rw [hvals p.1])
  rw [hfun2]
